import Mathlib

/-!
Shallow embedding of the gating/dispatch core of the command-center
repository: the permission matrix (orchestrator/src/allowlist.js), the
audit log (audit.js), pace/mode state (pace.js), the budget tracker
(budget.js), the anomaly detector (anomaly.js), the sleep scheduler
window test (sleep-scheduler.js), the proposal store (proposals.js) and
the dispatch gateway (agent.js, in both its multi-node and single-node
versions).

The SQLite database is modelled as an explicit state record `Db`: the
`system_state` key/value rows become typed fields (the JS code reads them
back through parseInt/parseFloat, so the typed field holds exactly the
parsed value), `audit_log` and `api_usage` become lists kept in ascending
id / insertion order, and `datetime('now')` comparisons become integer
timestamps passed in as a `now` parameter.  Money amounts (SQLite REAL)
are modelled as rationals.
-/

/-- One row of `audit_log`.  `id` is the monotonically increasing rowid;
`blocked` is the 0/1 integer column as a Bool. -/
structure AuditEntry where
  id : Nat
  agent : String
  action : String
  domain : String
  detail : Option String
  blocked : Bool
deriving DecidableEq

/-- One row of `api_usage` (budget.js recordUsage). -/
structure UsageRecord where
  agent : String
  domain : String
  node : String
  cost : ℚ
  durationMs : Nat
  createdAt : Int
deriving DecidableEq

/-- An anomaly reported by checkAnomalies (anomaly.js). -/
structure Anomaly where
  type : String
  agent : String
  detail : String
deriving DecidableEq

/-- The orchestrator database state: the `system_state` scalar rows
(pace, mode, budget_ceiling, budget_cost_per_call,
max_calls_per_agent_per_hour, max_consecutive_failures) plus the
`audit_log` and `api_usage` tables in ascending insertion order. -/
structure Db where
  pace : String
  mode : String
  budgetCeiling : ℚ
  costPerCall : ℚ
  maxCallsPerAgentPerHour : Nat
  maxConsecutiveFailures : Nat
  auditLog : List AuditEntry
  apiUsage : List UsageRecord
deriving DecidableEq

/-! ## allowlist.js -/

/-- `SLEEP_ALLOWED` set from allowlist.js. -/
def SLEEP_ALLOWED : List String :=
  ["scan", "research", "draft", "test", "maintenance", "analyze", "sandbox"]

/-- `PAUSE_ALLOWED` set from allowlist.js. -/
def PAUSE_ALLOWED : List String := ["scan"]

/-- `isAllowed(mode, action, pace)` from allowlist.js: stop blocks
everything; sleep mode restricts to SLEEP_ALLOWED; awake+pause restricts
to PAUSE_ALLOWED; otherwise everything is allowed. -/
def isAllowed (mode action pace : String) : Bool :=
  if pace = "stop" then false
  else if mode = "sleep" then SLEEP_ALLOWED.contains action
  else if pace = "pause" then PAUSE_ALLOWED.contains action
  else true

/-! ## pace.js -/

/-- `VALID_PACES` from pace.js. -/
def VALID_PACES : List String := ["full", "slow", "pause", "stop"]

/-- `VALID_MODES` from pace.js. -/
def VALID_MODES : List String := ["awake", "sleep"]

/-- `setPace(db, pace)` from pace.js: validates against VALID_PACES and
throws (modelled as `Except.error`) on an unrecognized value, otherwise
updates the single `pace` row. -/
def setPace (db : Db) (pace : String) : Except String Db :=
  if pace ∈ VALID_PACES then
    Except.ok { db with pace := pace }
  else
    Except.error ("Invalid pace: " ++ pace)

/-! ## audit.js -/

/-- `logAction(db, {agent, action, domain, detail, blocked})` from
audit.js: appends one row to `audit_log` with the next rowid.  The JS
function also returns the created row; callers in scope here ignore it,
so the embedding returns only the updated state. -/
def logAction (db : Db) (agent action domain : String)
    (detail : Option String) (blocked : Bool) : Db :=
  { db with auditLog :=
      db.auditLog ++ [⟨db.auditLog.length + 1, agent, action, domain, detail, blocked⟩] }

/-! ## sleep-scheduler.js -/

/-- An HH:MM wall-clock time, as parsed by `toMinutes` in
sleep-scheduler.js from the two colon-separated decimal fields. -/
structure HHMM where
  hh : Nat
  mm : Nat
deriving DecidableEq

/-- `toMinutes(timeStr)` from sleep-scheduler.js: `h * 60 + m`. -/
def toMinutes (t : HHMM) : Nat := t.hh * 60 + t.mm

/-- `isInSleepWindow(timeStr, sleepStart, sleepEnd)` from
sleep-scheduler.js: same-day window when start ≤ end, otherwise an
overnight window wrapping midnight. -/
def isInSleepWindow (timeStr sleepStart sleepEnd : HHMM) : Bool :=
  let t := toMinutes timeStr
  let start := toMinutes sleepStart
  let endMin := toMinutes sleepEnd
  if start ≤ endMin then
    decide (t ≥ start) && decide (t < endMin)
  else
    decide (t ≥ start) || decide (t < endMin)

/-! ## budget.js -/

/-- The object returned by `getBudgetStatus` (budget.js). -/
structure BudgetStatus where
  ceiling : ℚ
  spent : ℚ
  remaining : ℚ
  callCount : Nat
  withinBudget : Bool
  costPerCall : ℚ
deriving DecidableEq

/-- `getUsage24h(db)` from budget.js: SUM(cost) (COALESCE to 0) and
COUNT(*) over `api_usage` rows with `created_at >= now - 24 hours`.
Returns (totalCost, callCount). -/
def getUsage24h (db : Db) (now : Int) : ℚ × Nat :=
  let recent := db.apiUsage.filter (fun u => decide (now - 86400 ≤ u.createdAt))
  ((recent.map (fun u => u.cost)).sum, recent.length)

/-- `isWithinBudget(db)` from budget.js: `totalCost < ceiling`. -/
def isWithinBudget (db : Db) (now : Int) : Bool :=
  decide ((getUsage24h db now).1 < db.budgetCeiling)

/-- `getBudgetStatus(db)` from budget.js. -/
def getBudgetStatus (db : Db) (now : Int) : BudgetStatus :=
  let u := getUsage24h db now
  ⟨db.budgetCeiling, u.1, max 0 (db.budgetCeiling - u.1), u.2,
    decide (u.1 < db.budgetCeiling), db.costPerCall⟩

/-! ## proposals.js -/

/-- One row of `proposals`.  Inserted rows get `status = 'pending'`
(schema default), the next rowid, and `created_at = now`. -/
structure Proposal where
  id : Nat
  domain : String
  title : String
  body : String
  effort : String
  recommendation : String
  status : String
  source : String
  createdAt : Int
  resolvedAt : Option Int
  resolutionNote : Option String
deriving DecidableEq

/-- The argument object of `createProposal`. -/
structure ProposalInput where
  domain : String
  title : String
  body : String
  effort : String
  recommendation : String
  source : String
deriving DecidableEq

/-- `VALID_RESOLUTIONS` from proposals.js. -/
def VALID_RESOLUTIONS : List String :=
  ["greenlit", "modified", "rejected", "shelved", "expired", "shipped"]

/-- SQLite `LOWER` on a single character: folds only ASCII A–Z. -/
def sqlLowerChar (c : Char) : Char :=
  if 'A' ≤ c ∧ c ≤ 'Z' then Char.ofNat (c.toNat + 32) else c

/-- SQLite `LOWER(s)`: ASCII-only lowercasing, applied characterwise
(expressed over the underlying character list). -/
def sqlLower (s : String) : String := ⟨s.data.map sqlLowerChar⟩

/-- `findDuplicate(db, domain, title)` from proposals.js: the proposal
table rows with the same domain, case-insensitively equal title and
status pending or greenlit, ordered by created_at DESC, LIMIT 1.  The
list is kept in ascending insertion order, so DESC-first is the last
match. -/
def findDuplicate (ps : List Proposal) (domain title : String) : Option Proposal :=
  ((ps.filter (fun p =>
      p.domain == domain && sqlLower p.title == sqlLower title &&
        (p.status == "pending" || p.status == "greenlit"))).reverse).head?

/-- `createProposal(db, opts)` from proposals.js: if findDuplicate hits,
return the existing row with the ephemeral `_deduplicated` marker (the
Bool in the returned pair) and no state change; otherwise insert a new
row with the next id and the schema defaults status='pending',
created_at=now. -/
def createProposal (ps : List Proposal) (inp : ProposalInput) (now : Int) :
    (Proposal × Bool) × List Proposal :=
  match findDuplicate ps inp.domain inp.title with
  | some existing => ((existing, true), ps)
  | none =>
    let p : Proposal :=
      ⟨ps.length + 1, inp.domain, inp.title, inp.body, inp.effort,
        inp.recommendation, "pending", inp.source, now, none, none⟩
    ((p, false), ps ++ [p])

/-- `resolveProposal(db, id, status, note)` from proposals.js: throws
(modelled as `Except.error`) on a status outside VALID_RESOLUTIONS,
otherwise updates the row (status, resolution_note, resolved_at) and
returns the re-selected row (none when the id does not exist). -/
def resolveProposal (ps : List Proposal) (id : Nat) (status note : String)
    (now : Int) : Except String (Option Proposal × List Proposal) :=
  if VALID_RESOLUTIONS.contains status then
    let updated := ps.map (fun p =>
      if p.id = id then
        { p with status := status, resolutionNote := some note, resolvedAt := some now }
      else p)
    Except.ok (updated.find? (fun p => p.id == id), updated)
  else
    Except.error ("Invalid resolution status: " ++ status)

/-! ## anomaly.js -/

/-- Distinct GROUP BY keys of a list, in order of first appearance.
(SQLite does not fix the output order of GROUP BY; none of the
properties below depend on it.) -/
def distinctAgents (l : List String) : List String :=
  l.foldl (fun acc a => if a ∈ acc then acc else acc ++ [a]) []

/-- Check 1 of `checkAnomalies` (anomaly.js): agents whose `api_usage`
row count within the last hour exceeds max_calls_per_agent_per_hour
(HAVING cnt > threshold; a group exists only for agents with at least
one row, which is implied by cnt > threshold ≥ 0). -/
def excessiveCallAnomalies (db : Db) (now : Int) : List Anomaly :=
  let recent := db.apiUsage.filter (fun u => decide (now - 3600 ≤ u.createdAt))
  (distinctAgents (recent.map (fun u => u.agent))).filterMap (fun a =>
    let cnt := (recent.filter (fun u => u.agent == a)).length
    if db.maxCallsPerAgentPerHour < cnt then
      some ⟨"excessive_calls", a,
        toString cnt ++ " calls in last hour (threshold: " ++
          toString db.maxCallsPerAgentPerHour ++ ")"⟩
    else none)

/-- Check 2 of `checkAnomalies` (anomaly.js): over the blocked audit
rows, per agent, the window ROW_NUMBER() ... ORDER BY id DESC keeps
that agent's most recent N blocked rows (N = max_consecutive_failures,
the WHERE rn <= N filter, modelled as reverse-then-take on the
ascending-id list); a group exists when at least one row survives, and
HAVING cnt >= N keeps it when the kept-row count reaches N. -/
def consecutiveFailureAnomalies (db : Db) : List Anomaly :=
  let blockedRows := db.auditLog.filter (fun e => e.blocked)
  (distinctAgents (blockedRows.map (fun e => e.agent))).filterMap (fun a =>
    let rows :=
      (blockedRows.filter (fun e => e.agent == a)).reverse.take db.maxConsecutiveFailures
    if 1 ≤ rows.length ∧ db.maxConsecutiveFailures ≤ rows.length then
      some ⟨"consecutive_failures", a,
        toString rows.length ++ " consecutive blocked actions (threshold: " ++
          toString db.maxConsecutiveFailures ++ ")"⟩
    else none)

/-- The detail string of an auto_pause audit entry (anomaly.js). -/
def autoPauseDetail (a : Anomaly) : String :=
  a.type ++ ": " ++ a.agent ++ " — " ++ a.detail

/-- The `for (const a of anomalies) logAction(...)` loop of
checkAnomalies: one auto_pause entry per anomaly, in order. -/
def logAnomalies : Db → List Anomaly → Db
  | db, [] => db
  | db, a :: rest =>
      logAnomalies
        (logAction db "anomaly-detector" "auto_pause" "system"
          (some (autoPauseDetail a)) false) rest

/-- `checkAnomalies(db)` from anomaly.js: run both checks; if any
anomaly was found, force pace to pause via setPace (whose validation
always succeeds for the literal "pause", so the error arm of the match
is unreachable), log one auto_pause entry per anomaly, and report
autoPaused. -/
def checkAnomalies (db : Db) (now : Int) : (List Anomaly × Bool) × Db :=
  let anomalies := excessiveCallAnomalies db now ++ consecutiveFailureAnomalies db
  if 0 < anomalies.length then
    let db1 := match setPace db "pause" with
      | Except.ok d => d
      | Except.error _ => db
    ((anomalies, true), logAnomalies db1 anomalies)
  else
    ((anomalies, false), db)

/-- The number of blocked audit entries of one agent: the rows with
blocked=true restricted to that agent, as counted by check 2. -/
def countBlocked (log : List AuditEntry) (a : String) : Nat :=
  ((log.filter (fun e => e.blocked)).filter (fun e => e.agent == a)).length

/-! ## agent.js (dispatch gateway) -/

/-- A dispatch task: action, domain, message, optional audit name, and
the target node from `options` (the only option field the gateway
itself inspects; the rest of the options bag is forwarded opaquely to
the external agent collaborator). -/
structure DispatchTask where
  action : String
  domain : String
  message : String
  agentName : Option String
  node : Option String
deriving DecidableEq

/-- The normalized result of `callAgent`: the external agent
collaborator is an opaque black box, so its outcome is passed to
`dispatch` as an explicit argument of this type. -/
structure AgentResult where
  ok : Bool
  response : Option String
  error : Option String
  durationMs : Nat
  node : String
deriving DecidableEq

/-- The object returned by `dispatch`.  The blocked early return
carries no durationMs/node keys, modelled as `none`. -/
structure DispatchResult where
  ok : Bool
  allowed : Bool
  response : Option String
  error : Option String
  durationMs : Option Nat
  node : Option String
deriving DecidableEq

/-- `dispatch(db, task)` from the multi-node agent.js: read pace and
mode, consult the allowlist; when denied, log one blocked entry and
return early; when allowed, log a dispatching entry (message preview
truncated to 100 characters), invoke the collaborator (its outcome is
the `agentResult` argument) and log a non-blocked completion entry for
success and failure alike.  The extra Bool reports whether the
collaborator was invoked. -/
def dispatch (db : Db) (task : DispatchTask) (agentResult : AgentResult) :
    DispatchResult × Db × Bool :=
  let pace := db.pace
  let mode := db.mode
  let targetNode := task.node.getD "pi1"
  let agentName := task.agentName.getD ("openclaw:" ++ task.action ++ "@" ++ targetNode)
  if isAllowed mode task.action pace = false then
    let db1 := logAction db agentName task.action task.domain
      (some ("Blocked by allowlist (mode=" ++ mode ++ ", pace=" ++ pace ++ ")")) true
    (⟨false, false, none, some "Blocked by allowlist", none, none⟩, db1, false)
  else
    let db1 := logAction db agentName task.action task.domain
      (some ("Dispatching to " ++ targetNode ++ ": " ++ task.message.take 100 ++ "..."))
      false
    let result := agentResult
    let db2 := logAction db1 agentName task.action task.domain
      (some (if result.ok then
          "Completed on " ++ result.node ++ " in " ++ toString result.durationMs ++ "ms"
        else
          "Failed on " ++ result.node ++ ": " ++ result.error.getD "")) false
    (⟨result.ok, true, result.response, result.error,
      some result.durationMs, some result.node⟩, db2, true)

/-- `dispatch(db, task)` from the earlier single-node agent.js:
identical gating and logging logic; the default audit name has no node
suffix, the detail strings name no node, and the returned object has
no node key (its callAgent result carries none — the `node` field of
`agentResult` is unused here). -/
def dispatchSingleNode (db : Db) (task : DispatchTask) (agentResult : AgentResult) :
    DispatchResult × Db × Bool :=
  let pace := db.pace
  let mode := db.mode
  let agentName := task.agentName.getD ("openclaw:" ++ task.action)
  if isAllowed mode task.action pace = false then
    let db1 := logAction db agentName task.action task.domain
      (some ("Blocked by allowlist (mode=" ++ mode ++ ", pace=" ++ pace ++ ")")) true
    (⟨false, false, none, some "Blocked by allowlist", none, none⟩, db1, false)
  else
    let db1 := logAction db agentName task.action task.domain
      (some ("Dispatching: " ++ task.message.take 100 ++ "...")) false
    let result := agentResult
    let db2 := logAction db1 agentName task.action task.domain
      (some (if result.ok then "Completed in " ++ toString result.durationMs ++ "ms"
        else "Failed: " ++ result.error.getD "")) false
    (⟨result.ok, true, result.response, result.error,
      some result.durationMs, none⟩, db2, true)

/-! ## Concrete stores and databases used by witnesses -/

/-- A database with pace=stop, for the C2 witness. -/
def stopDb : Db := ⟨"stop", "awake", 50, 1 / 100, 20, 5, [], []⟩

/-- A database with pace=full, mode=awake, for the C10 witness. -/
def fullDb : Db := ⟨"full", "awake", 50, 1 / 100, 20, 5, [], []⟩

/-- A scan task for the dispatch witnesses. -/
def scanTask : DispatchTask := ⟨"scan", "x", "please scan the site", none, none⟩

/-- A canned collaborator outcome for the dispatch witnesses. -/
def stubResult : AgentResult := ⟨true, some "done", none, 5, "pi1"⟩

/-- A database with max_calls_per_agent_per_hour = 3 and four usage
rows from one agent inside the hour, for the C6 witness. -/
def burstDb : Db :=
  ⟨"full", "awake", 50, 1 / 100, 3, 5, [],
    [⟨"scanner", "x", "pi1", 0, 10, 1000⟩, ⟨"scanner", "x", "pi1", 0, 10, 1100⟩,
     ⟨"scanner", "x", "pi1", 0, 10, 1200⟩, ⟨"scanner", "x", "pi1", 0, 10, 1300⟩]⟩

/-- A database with max_consecutive_failures = 2 whose log holds two
blocked entries of one agent separated by a non-blocked one, for the
C7 witness. -/
def interleavedDb : Db :=
  ⟨"full", "awake", 50, 1 / 100, 20, 2,
    [⟨1, "bot", "scan", "x", none, true⟩, ⟨2, "bot", "scan", "x", none, false⟩,
     ⟨3, "bot", "scan", "x", none, true⟩], []⟩

/-- A one-row proposal store holding a pending proposal, for the C4
witness. -/
def pendingFaviconStore : List Proposal :=
  [⟨1, "glory-jams", "Add Favicon", "first body", "low", "do it",
    "pending", "scan", 0, none, none⟩]

/-- A duplicate submission (case-differing title) for the C4 witness. -/
def faviconResubmit : ProposalInput :=
  ⟨"glory-jams", "add favicon", "second body", "high", "redo", "scan"⟩

/-- First submission used to build the C5 stores. -/
def faviconFirst : ProposalInput :=
  ⟨"glory-jams", "Add favicon", "first body", "low", "ship it", "scan"⟩

/-- Re-submission with a case-differing title, for C5. -/
def faviconRetry : ProposalInput :=
  ⟨"glory-jams", "add favicon", "second body", "low", "try again", "scan"⟩

/-- Store after creating the first favicon proposal. -/
def faviconStore : List Proposal := (createProposal [] faviconFirst 0).2

/-- Store after resolving the favicon proposal to `greenlit`. -/
def greenlitFaviconStore : List Proposal :=
  match resolveProposal faviconStore 1 "greenlit" "approved" 5 with
  | Except.ok r => r.2
  | Except.error _ => []

/-- Store after resolving the favicon proposal to `rejected`. -/
def rejectedFaviconStore : List Proposal :=
  match resolveProposal faviconStore 1 "rejected" "nope" 5 with
  | Except.ok r => r.2
  | Except.error _ => []

/-- A database whose trailing-24h spend equals its ceiling exactly, for
the C8 witness. -/
def atCeilingDb : Db :=
  ⟨"full", "awake", 2, 1 / 100, 20, 5, [],
    [⟨"agent-a", "dom", "pi1", 1, 10, 0⟩, ⟨"agent-b", "dom", "pi1", 1, 10, 0⟩]⟩

/-! ## Theorems for the permission matrix -/

/-- C1: for every mode, pace and action string, `isAllowed` follows the
§4.1 table: pace = stop is always denied; in sleep mode (with pace not
stop) an action is allowed exactly when it is one of the seven
sleep-safe actions; awake + pause allows exactly `scan`; awake + full or
slow allows every action. -/
theorem isAllowed_matches_matrix (mode action pace : String) :
    (pace = "stop" → isAllowed mode action pace = false) ∧
    (pace ≠ "stop" → mode = "sleep" →
      (isAllowed mode action pace = true ↔
        (action = "scan" ∨ action = "research" ∨ action = "draft" ∨
         action = "test" ∨ action = "maintenance" ∨ action = "analyze" ∨
         action = "sandbox"))) ∧
    (pace = "pause" → mode = "awake" →
      (isAllowed mode action pace = true ↔ action = "scan")) ∧
    ((pace = "full" ∨ pace = "slow") → mode = "awake" →
      isAllowed mode action pace = true) := by
  refine ⟨?_, ?_, ?_, ?_⟩
  · intro h
    simp [isAllowed, h]
  · intro hstop hsleep
    subst hsleep
    simp [isAllowed, hstop, SLEEP_ALLOWED, List.elem_iff]
  · intro hpause hawake
    subst hpause hawake
    simp [isAllowed, PAUSE_ALLOWED, List.elem_iff]
  · intro hp hawake
    subst hawake
    rcases hp with h | h <;> subst h <;> simp [isAllowed]

/-- C1 witness: concrete rows of the matrix, obtained from the theorem. -/
theorem isAllowed_matches_matrix_witness :
    isAllowed "awake" "deploy" "stop" = false ∧
    isAllowed "sleep" "research" "full" = true ∧
    isAllowed "awake" "deploy" "pause" = false ∧
    isAllowed "awake" "deploy" "slow" = true := by
  refine ⟨?_, ?_, ?_, ?_⟩
  · exact (isAllowed_matches_matrix "awake" "deploy" "stop").1 rfl
  · exact ((isAllowed_matches_matrix "sleep" "research" "full").2.1
      (by decide) rfl).mpr (by tauto)
  · have h := ((isAllowed_matches_matrix "awake" "deploy" "pause").2.2.1 rfl rfl)
    by_contra hcon
    simp only [Bool.not_eq_false] at hcon
    exact absurd (h.mp hcon) (by decide)
  · exact (isAllowed_matches_matrix "awake" "deploy" "slow").2.2.2 (Or.inr rfl) rfl

/-- C3 counterexample: a pace outside the enum together with a mode
outside the enum is allowed (returns true), not denied — the function
fails open, not closed. -/
theorem isAllowed_unrecognized_counterexample :
    isAllowed "boost" "deploy" "turbo" = true := by decide

/-- C3 amended: for every pace value outside {full, slow, pause, stop}
and every mode value outside {awake, sleep}, `isAllowed` returns true
for every action: an unrecognized mode falls through to the awake
branch and an unrecognized pace falls through to the full/slow branch,
so unrecognized values fail open. -/
theorem isAllowed_unrecognized_fails_open (mode action pace : String)
    (hm : mode ≠ "awake" ∧ mode ≠ "sleep")
    (hp : pace ≠ "full" ∧ pace ≠ "slow" ∧ pace ≠ "pause" ∧ pace ≠ "stop") :
    isAllowed mode action pace = true := by
  simp [isAllowed, hp.2.2.2, hp.2.2.1, hm.2]

/-- C3 amended witness. -/
theorem isAllowed_unrecognized_fails_open_witness :
    isAllowed "hibernate" "spend" "ludicrous" = true :=
  isAllowed_unrecognized_fails_open "hibernate" "spend" "ludicrous"
    (by decide) (by decide)

/-! ## Theorems for the sleep window -/

/-- C9: for all HH:MM times, when start ≤ end the window is the same-day
half-open interval [start, end), and when start > end the window wraps
midnight: inside iff t ≥ start or t < end.  Start inclusive, end
exclusive in both branches. -/
theorem isInSleepWindow_boundaries (t s e : HHMM) :
    (toMinutes s ≤ toMinutes e →
      (isInSleepWindow t s e = true ↔
        toMinutes s ≤ toMinutes t ∧ toMinutes t < toMinutes e)) ∧
    (toMinutes e < toMinutes s →
      (isInSleepWindow t s e = true ↔
        toMinutes t ≥ toMinutes s ∨ toMinutes t < toMinutes e)) := by
  constructor
  · intro h
    simp [isInSleepWindow, h]
  · intro h
    simp [isInSleepWindow, Nat.not_le.mpr h]

/-- C9 witness: the 23:00–08:00 wrapping window includes 23:00 and
07:59 and excludes 08:00 and 22:59; the same-day window 01:00–06:00
includes 01:00 and excludes 06:00. -/
theorem isInSleepWindow_boundaries_witness :
    isInSleepWindow ⟨23, 0⟩ ⟨23, 0⟩ ⟨8, 0⟩ = true ∧
    isInSleepWindow ⟨7, 59⟩ ⟨23, 0⟩ ⟨8, 0⟩ = true ∧
    isInSleepWindow ⟨8, 0⟩ ⟨23, 0⟩ ⟨8, 0⟩ = false ∧
    isInSleepWindow ⟨22, 59⟩ ⟨23, 0⟩ ⟨8, 0⟩ = false ∧
    isInSleepWindow ⟨1, 0⟩ ⟨1, 0⟩ ⟨6, 0⟩ = true ∧
    isInSleepWindow ⟨6, 0⟩ ⟨1, 0⟩ ⟨6, 0⟩ = false := by
  refine ⟨?_, ?_, ?_, ?_, ?_, ?_⟩
  · exact ((isInSleepWindow_boundaries ⟨23, 0⟩ ⟨23, 0⟩ ⟨8, 0⟩).2
      (by decide)).mpr (Or.inl (by decide))
  · exact ((isInSleepWindow_boundaries ⟨7, 59⟩ ⟨23, 0⟩ ⟨8, 0⟩).2
      (by decide)).mpr (Or.inr (by decide))
  · have h := (isInSleepWindow_boundaries ⟨8, 0⟩ ⟨23, 0⟩ ⟨8, 0⟩).2 (by decide)
    by_contra hcon
    simp only [Bool.not_eq_false] at hcon
    exact absurd (h.mp hcon) (by decide)
  · have h := (isInSleepWindow_boundaries ⟨22, 59⟩ ⟨23, 0⟩ ⟨8, 0⟩).2 (by decide)
    by_contra hcon
    simp only [Bool.not_eq_false] at hcon
    exact absurd (h.mp hcon) (by decide)
  · exact ((isInSleepWindow_boundaries ⟨1, 0⟩ ⟨1, 0⟩ ⟨6, 0⟩).1
      (by decide)).mpr (by decide)
  · have h := (isInSleepWindow_boundaries ⟨6, 0⟩ ⟨1, 0⟩ ⟨6, 0⟩).1 (by decide)
    by_contra hcon
    simp only [Bool.not_eq_false] at hcon
    exact absurd (h.mp hcon) (by decide)

/-! ## Theorems for the proposal store -/

lemma findDuplicate_spec_of_eq_some (ps : List Proposal) (d t : String)
    (q : Proposal) (h : findDuplicate ps d t = some q) :
    q ∈ ps ∧ q.domain = d ∧ sqlLower q.title = sqlLower t ∧
      (q.status = "pending" ∨ q.status = "greenlit") := by
  unfold findDuplicate at h
  cases h' : (ps.filter (fun p =>
      p.domain == d && sqlLower p.title == sqlLower t &&
        (p.status == "pending" || p.status == "greenlit"))).reverse with
  | nil => rw [h'] at h; simp at h
  | cons x xs =>
    rw [h'] at h
    simp only [List.head?_cons, Option.some.injEq] at h
    subst h
    have hx : x ∈ (ps.filter (fun p =>
        p.domain == d && sqlLower p.title == sqlLower t &&
          (p.status == "pending" || p.status == "greenlit"))).reverse := by
      rw [h']; exact List.mem_cons_self x xs
    rw [List.mem_reverse] at hx
    have := List.mem_filter.mp hx
    refine ⟨this.1, ?_⟩
    have hpred := this.2
    simp only [Bool.and_eq_true, Bool.or_eq_true, beq_iff_eq] at hpred
    exact ⟨hpred.1.1, hpred.1.2, hpred.2⟩

lemma findDuplicate_isSome_of_mem (ps : List Proposal) (d t : String)
    (p : Proposal) (hp : p ∈ ps) (hd : p.domain = d)
    (ht : sqlLower p.title = sqlLower t)
    (hs : p.status = "pending" ∨ p.status = "greenlit") :
    ∃ q, findDuplicate ps d t = some q := by
  have hpf : p ∈ ps.filter (fun p =>
      p.domain == d && sqlLower p.title == sqlLower t &&
        (p.status == "pending" || p.status == "greenlit")) := by
    refine List.mem_filter.mpr ⟨hp, ?_⟩
    simp only [Bool.and_eq_true, Bool.or_eq_true, beq_iff_eq]
    exact ⟨⟨hd, ht⟩, hs⟩
  unfold findDuplicate
  cases h' : (ps.filter (fun p =>
      p.domain == d && sqlLower p.title == sqlLower t &&
        (p.status == "pending" || p.status == "greenlit"))).reverse with
  | nil =>
    rw [List.reverse_eq_nil_iff] at h'
    rw [h'] at hpf
    simp at hpf
  | cons x xs => exact ⟨x, rfl⟩

/-- C4: whenever the store holds a proposal with the same domain, a
case-insensitively equal title and status pending or greenlit,
createProposal returns such an existing live proposal together with the
ephemeral deduplicated marker, inserts no new row and leaves the store
— in particular the existing row's body, effort, recommendation and
source — completely unchanged (first-write-wins). -/
theorem createProposal_dedup_first_write_wins (ps : List Proposal)
    (inp : ProposalInput) (now : Int) (p : Proposal) (hp : p ∈ ps)
    (hd : p.domain = inp.domain) (ht : sqlLower p.title = sqlLower inp.title)
    (hs : p.status = "pending" ∨ p.status = "greenlit") :
    ∃ q ∈ ps, q.domain = inp.domain ∧ sqlLower q.title = sqlLower inp.title ∧
      (q.status = "pending" ∨ q.status = "greenlit") ∧
      createProposal ps inp now = ((q, true), ps) := by
  obtain ⟨q, hq⟩ := findDuplicate_isSome_of_mem ps inp.domain inp.title p hp hd ht hs
  obtain ⟨hmem, hqd, hqt, hqs⟩ := findDuplicate_spec_of_eq_some ps inp.domain inp.title q hq
  exact ⟨q, hmem, hqd, hqt, hqs, by unfold createProposal; rw [hq]⟩

/-- C4 witness: resubmitting "add favicon" against a store holding a
pending "Add Favicon" changes nothing and reports deduplication. -/
theorem createProposal_dedup_first_write_wins_witness :
    (createProposal pendingFaviconStore faviconResubmit 100).2 = pendingFaviconStore ∧
    (createProposal pendingFaviconStore faviconResubmit 100).1.2 = true := by
  obtain ⟨q, hq, hqd, hqt, hqs, heq⟩ :=
    createProposal_dedup_first_write_wins pendingFaviconStore faviconResubmit 100
      ⟨1, "glory-jams", "Add Favicon", "first body", "low", "do it",
        "pending", "scan", 0, none, none⟩
      (by decide) (by decide) (by decide) (Or.inl (by decide))
  rw [heq]
  exact ⟨rfl, rfl⟩

/-- C5 counterexample: after resolving the favicon proposal to the
terminal status `greenlit`, re-creating the identical domain+title does
NOT insert a fresh pending row: the store is unchanged and the resolved
(greenlit) proposal itself is returned as a duplicate. -/
theorem createProposal_after_greenlit_counterexample :
    greenlitFaviconStore.map (fun p => (p.id, p.status)) = [(1, "greenlit")] ∧
    (createProposal greenlitFaviconStore faviconRetry 20).2 = greenlitFaviconStore ∧
    (createProposal greenlitFaviconStore faviconRetry 20).1.2 = true ∧
    (createProposal greenlitFaviconStore faviconRetry 20).1.1.status = "greenlit" ∧
    (createProposal greenlitFaviconStore faviconRetry 20).1.1.id = 1 := by
  decide

/-- C5 amended: for every proposal store in which every proposal with
the same domain and case-insensitively equal title has been resolved to
a terminal status other than greenlit — one of modified, rejected,
shelved, expired, shipped — createProposal with that domain and title
is treated as brand-new: a row with a fresh id and status pending is
appended (a proposal resolved to greenlit, by contrast, remains a
dedup target, as the counterexample shows). -/
theorem createProposal_after_nongreenlit_resolution (ps : List Proposal)
    (inp : ProposalInput) (now : Int)
    (h : ∀ p ∈ ps, p.domain = inp.domain → sqlLower p.title = sqlLower inp.title →
      p.status ∈ (["modified", "rejected", "shelved", "expired", "shipped"] : List String)) :
    ∃ newP : Proposal, createProposal ps inp now = ((newP, false), ps ++ [newP]) ∧
      newP.id = ps.length + 1 ∧ newP.status = "pending" ∧
      newP.domain = inp.domain ∧ newP.title = inp.title ∧ newP.body = inp.body := by
  have hnone : findDuplicate ps inp.domain inp.title = none := by
    unfold findDuplicate
    have hfil : ps.filter (fun p =>
        p.domain == inp.domain && sqlLower p.title == sqlLower inp.title &&
          (p.status == "pending" || p.status == "greenlit")) = [] := by
      refine List.filter_eq_nil_iff.mpr (fun p hp => ?_)
      simp only [Bool.and_eq_true, Bool.or_eq_true, beq_iff_eq, not_and, not_or]
      intro hdt
      have hterm := h p hp hdt.1 hdt.2
      constructor
      · intro hpend; rw [hpend] at hterm; exact absurd hterm (by decide)
      · intro hgreen; rw [hgreen] at hterm; exact absurd hterm (by decide)
    rw [hfil]
    rfl
  refine ⟨⟨ps.length + 1, inp.domain, inp.title, inp.body, inp.effort,
    inp.recommendation, "pending", inp.source, now, none, none⟩,
    ?_, rfl, rfl, rfl, rfl, rfl⟩
  unfold createProposal
  rw [hnone]

/-- C5 amended witness: after resolving the favicon proposal to
`rejected`, the identical domain+title submission is inserted as a
brand-new pending row. -/
theorem createProposal_after_nongreenlit_resolution_witness :
    (createProposal rejectedFaviconStore faviconRetry 20).1.2 = false ∧
    (createProposal rejectedFaviconStore faviconRetry 20).1.1.status = "pending" ∧
    (createProposal rejectedFaviconStore faviconRetry 20).1.1.id = 2 := by
  obtain ⟨newP, heq, hid, hstat, _⟩ :=
    createProposal_after_nongreenlit_resolution rejectedFaviconStore faviconRetry 20
      (by decide)
  rw [heq]
  refine ⟨rfl, hstat, ?_⟩
  rw [hid]
  decide

/-! ## Theorems for the budget tracker -/

/-- C8: isWithinBudget is true exactly when the summed cost of the
usage rows created within the trailing 24 hours is strictly below the
ceiling; spend exactly equal to the ceiling is already over budget; and
getBudgetStatus reports the same withinBudget flag, the same spent
total and remaining = max(0, ceiling - spent). -/
theorem isWithinBudget_strict (db : Db) (now : Int) :
    (isWithinBudget db now = true ↔
      ((db.apiUsage.filter (fun u => decide (now - 86400 ≤ u.createdAt))).map
        (fun u => u.cost)).sum < db.budgetCeiling) ∧
    ((getUsage24h db now).1 = db.budgetCeiling → isWithinBudget db now = false) ∧
    (getBudgetStatus db now).withinBudget = isWithinBudget db now ∧
    (getBudgetStatus db now).spent = (getUsage24h db now).1 ∧
    (getBudgetStatus db now).ceiling = db.budgetCeiling ∧
    (getBudgetStatus db now).remaining =
      max 0 ((getBudgetStatus db now).ceiling - (getBudgetStatus db now).spent) := by
  refine ⟨?_, ?_, rfl, rfl, rfl, rfl⟩
  · simp [isWithinBudget, getUsage24h]
  · intro h
    simp [isWithinBudget, h]

/-- C8 witness: a database whose 24h spend is exactly the ceiling (two
records of cost 1 against a ceiling of 2) is not within budget. -/
theorem isWithinBudget_strict_witness : isWithinBudget atCeilingDb 0 = false := by
  refine (isWithinBudget_strict atCeilingDb 0).2.1 ?_
  show ((atCeilingDb.apiUsage.filter
      (fun u => decide ((0 : Int) - 86400 ≤ u.createdAt))).map (fun u => u.cost)).sum
    = atCeilingDb.budgetCeiling
  norm_num [atCeilingDb]

/-! ## Theorems for the dispatch gateway -/

/-- C2: whenever the permission matrix denies (mode, action, pace) —
for instance whenever pace = stop — both dispatch versions append
exactly one audit entry, blocked with a detail naming the blocking mode
and pace, return ok:false / allowed:false / response:null /
error:"Blocked by allowlist", and never invoke the external agent
collaborator (the final Bool of the triple), whatever outcome `r` the
collaborator would have produced. -/
theorem dispatch_blocked_path (db : Db) (task : DispatchTask) (r : AgentResult)
    (h : isAllowed db.mode task.action db.pace = false) :
    ∃ e1 e2 : AuditEntry,
      dispatch db task r =
        (⟨false, false, none, some "Blocked by allowlist", none, none⟩,
          { db with auditLog := db.auditLog ++ [e1] }, false) ∧
      e1.blocked = true ∧ e1.action = task.action ∧ e1.domain = task.domain ∧
      e1.detail = some ("Blocked by allowlist (mode=" ++ db.mode ++
        ", pace=" ++ db.pace ++ ")") ∧
      dispatchSingleNode db task r =
        (⟨false, false, none, some "Blocked by allowlist", none, none⟩,
          { db with auditLog := db.auditLog ++ [e2] }, false) ∧
      e2.blocked = true ∧ e2.action = task.action ∧ e2.domain = task.domain ∧
      e2.detail = some ("Blocked by allowlist (mode=" ++ db.mode ++
        ", pace=" ++ db.pace ++ ")") := by
  refine ⟨⟨db.auditLog.length + 1,
      task.agentName.getD ("openclaw:" ++ task.action ++ "@" ++ task.node.getD "pi1"),
      task.action, task.domain,
      some ("Blocked by allowlist (mode=" ++ db.mode ++ ", pace=" ++ db.pace ++ ")"),
      true⟩,
    ⟨db.auditLog.length + 1, task.agentName.getD ("openclaw:" ++ task.action),
      task.action, task.domain,
      some ("Blocked by allowlist (mode=" ++ db.mode ++ ", pace=" ++ db.pace ++ ")"),
      true⟩, ?_, rfl, rfl, rfl, rfl, ?_, rfl, rfl, rfl, rfl⟩
  · simp [dispatch, logAction, h]
  · simp [dispatchSingleNode, logAction, h]

/-- C2 witness: with pace=stop, a scan dispatch is blocked, returns the
allowlist error, appends exactly one entry and never invokes the
collaborator. -/
theorem dispatch_blocked_path_witness :
    (dispatch stopDb scanTask stubResult).2.2 = false ∧
    (dispatch stopDb scanTask stubResult).1.error = some "Blocked by allowlist" ∧
    (dispatch stopDb scanTask stubResult).1.allowed = false ∧
    (dispatch stopDb scanTask stubResult).2.1.auditLog.length = 1 := by
  obtain ⟨e1, e2, h1, hb1, _, _, _, h2, _⟩ :=
    dispatch_blocked_path stopDb scanTask stubResult (by decide)
  rw [h1]
  refine ⟨rfl, rfl, rfl, ?_⟩
  simp [stopDb]

lemma consecutiveFailureAnomalies_congr (db db' : Db)
    (hlog : db'.auditLog.filter (fun e => e.blocked) =
      db.auditLog.filter (fun e => e.blocked))
    (hN : db'.maxConsecutiveFailures = db.maxConsecutiveFailures) :
    consecutiveFailureAnomalies db' = consecutiveFailureAnomalies db := by
  unfold consecutiveFailureAnomalies
  rw [hlog, hN]

/-- C10: when the permission check passes, both dispatch versions
append exactly two audit entries — the dispatching entry and the
completion entry — and both have blocked = false for every collaborator
outcome `r`, including failures (r.ok = false); consequently the
per-agent blocked count and the consecutive_failures anomaly list are
unchanged by the call. -/
theorem dispatch_allowed_entries_not_blocked (db : Db) (task : DispatchTask)
    (r : AgentResult) (h : isAllowed db.mode task.action db.pace = true) :
    ((dispatch db task r).2.1.auditLog.take db.auditLog.length = db.auditLog ∧
      (dispatch db task r).2.1.auditLog.length = db.auditLog.length + 2 ∧
      (∀ e ∈ (dispatch db task r).2.1.auditLog.drop db.auditLog.length,
        e.blocked = false) ∧
      (∀ a, countBlocked (dispatch db task r).2.1.auditLog a =
        countBlocked db.auditLog a) ∧
      consecutiveFailureAnomalies (dispatch db task r).2.1 =
        consecutiveFailureAnomalies db) ∧
    ((dispatchSingleNode db task r).2.1.auditLog.take db.auditLog.length = db.auditLog ∧
      (dispatchSingleNode db task r).2.1.auditLog.length = db.auditLog.length + 2 ∧
      (∀ e ∈ (dispatchSingleNode db task r).2.1.auditLog.drop db.auditLog.length,
        e.blocked = false) ∧
      (∀ a, countBlocked (dispatchSingleNode db task r).2.1.auditLog a =
        countBlocked db.auditLog a) ∧
      consecutiveFailureAnomalies (dispatchSingleNode db task r).2.1 =
        consecutiveFailureAnomalies db) := by
  have hcond : ¬ (isAllowed db.mode task.action db.pace = false) := by simp [h]
  have hfil : (dispatch db task r).2.1.auditLog.filter (fun e => e.blocked) =
      db.auditLog.filter (fun e => e.blocked) := by
    simp [dispatch, logAction, hcond, List.filter_append]
  have hfil' : (dispatchSingleNode db task r).2.1.auditLog.filter (fun e => e.blocked) =
      db.auditLog.filter (fun e => e.blocked) := by
    simp [dispatchSingleNode, logAction, hcond, List.filter_append]
  constructor
  · refine ⟨?_, ?_, ?_, ?_, ?_⟩
    · simp [dispatch, logAction, hcond]
    · simp [dispatch, logAction, hcond]
    · simp [dispatch, logAction, hcond]
    · intro a
      unfold countBlocked
      rw [hfil]
    · exact consecutiveFailureAnomalies_congr db _ hfil (by simp [dispatch, logAction, hcond])
  · refine ⟨?_, ?_, ?_, ?_, ?_⟩
    · simp [dispatchSingleNode, logAction, hcond]
    · simp [dispatchSingleNode, logAction, hcond]
    · simp [dispatchSingleNode, logAction, hcond]
    · intro a
      unfold countBlocked
      rw [hfil']
    · exact consecutiveFailureAnomalies_congr db _ hfil'
        (by simp [dispatchSingleNode, logAction, hcond])

/-- C10 witness: an allowed dispatch on an empty log leaves the blocked
count of its own agent at zero and appends exactly two entries. -/
theorem dispatch_allowed_entries_not_blocked_witness :
    (dispatch fullDb scanTask stubResult).2.1.auditLog.length = 2 ∧
    countBlocked (dispatch fullDb scanTask stubResult).2.1.auditLog
      "openclaw:scan@pi1" = 0 := by
  obtain ⟨⟨htake, hlen, hdrop, hcount, hanom⟩, _⟩ :=
    dispatch_allowed_entries_not_blocked fullDb scanTask stubResult (by decide)
  constructor
  · rw [hlen]
    rfl
  · rw [hcount "openclaw:scan@pi1"]
    rfl

/-! ## Theorems for the anomaly detector -/

lemma logAnomalies_spec (as : List Anomaly) (db : Db) :
    (logAnomalies db as).pace = db.pace ∧
    (logAnomalies db as).mode = db.mode ∧
    ∃ es : List AuditEntry,
      (logAnomalies db as).auditLog = db.auditLog ++ es ∧
      es.map (fun e => (e.agent, e.action, e.blocked, e.detail)) =
        as.map (fun a =>
          ("anomaly-detector", "auto_pause", false, some (autoPauseDetail a))) := by
  induction as generalizing db with
  | nil => exact ⟨rfl, rfl, [], by simp [logAnomalies], rfl⟩
  | cons a rest ih =>
    obtain ⟨hp, hm, es, hlog, hmap⟩ :=
      ih (logAction db "anomaly-detector" "auto_pause" "system"
        (some (autoPauseDetail a)) false)
    refine ⟨hp, hm,
      ⟨db.auditLog.length + 1, "anomaly-detector", "auto_pause", "system",
        some (autoPauseDetail a), false⟩ :: es, ?_, ?_⟩
    · show (logAnomalies (logAction db "anomaly-detector" "auto_pause" "system"
        (some (autoPauseDetail a)) false) rest).auditLog = _
      rw [hlog]
      simp [logAction]
    · simp [hmap]

lemma checkAnomalies_anomalies (db : Db) (now : Int) :
    (checkAnomalies db now).1.1 =
      excessiveCallAnomalies db now ++ consecutiveFailureAnomalies db := by
  simp only [checkAnomalies]
  split <;> rfl

/-- C6: checkAnomalies forces pace to pause exactly when it detects
anomalies, appends exactly one auto_pause audit entry per anomaly —
agent anomaly-detector, action auto_pause, blocked false, detail from
the anomaly's type, agent and detail — never changes mode, never sets
pace to stop, leaves the state untouched when nothing was detected,
and returns autoPaused = true exactly when at least one anomaly was
detected. -/
theorem checkAnomalies_side_effects (db : Db) (now : Int) (as : List Anomaly)
    (ap : Bool) (db' : Db) (h : checkAnomalies db now = ((as, ap), db')) :
    (ap = true ↔ as ≠ []) ∧
    (as ≠ [] → db'.pace = "pause" ∧ db'.pace ≠ "stop" ∧ db'.mode = db.mode ∧
      db'.auditLog.take db.auditLog.length = db.auditLog ∧
      (db'.auditLog.drop db.auditLog.length).map
          (fun e => (e.agent, e.action, e.blocked, e.detail)) =
        as.map (fun a =>
          ("anomaly-detector", "auto_pause", false, some (autoPauseDetail a)))) ∧
    (as = [] → db' = db) := by
  simp only [checkAnomalies] at h
  split at h
  case isTrue hpos =>
    simp only [Prod.mk.injEq] at h
    obtain ⟨⟨has, hap⟩, hdb⟩ := h
    subst hap
    rw [has] at hpos hdb
    have hdb2 : logAnomalies { db with pace := "pause" } as = db' := hdb
    have hne : as ≠ [] := by
      intro hnil
      rw [hnil] at hpos
      simp at hpos
    obtain ⟨hp, hm, es, hlog, hmap⟩ :=
      logAnomalies_spec as { db with pace := "pause" }
    refine ⟨by simp [hne], fun _ => ?_, fun hnil => absurd hnil hne⟩
    rw [← hdb2]
    refine ⟨hp, by rw [hp]; simp, hm, ?_, ?_⟩
    · rw [hlog]
      exact List.take_left db.auditLog es
    · rw [hlog]
      rw [show ((db.auditLog ++ es).drop db.auditLog.length) = es from
        List.drop_left db.auditLog es]
      exact hmap
  case isFalse hzero =>
    simp only [Prod.mk.injEq] at h
    obtain ⟨⟨has, hap⟩, hdb⟩ := h
    subst hap
    rw [has] at hzero
    have hnil : as = [] := by
      rcases as with _ | ⟨a, rest⟩
      · rfl
      · exact absurd (by simp) hzero
    exact ⟨by simp [hnil], fun hne => absurd hnil hne, fun _ => hdb.symm⟩

/-- C6 witness: four calls inside the hour against a threshold of 3
produce an anomaly and force pace to pause while mode stays awake. -/
theorem checkAnomalies_side_effects_witness :
    (checkAnomalies burstDb 2000).2.pace = "pause" ∧
    (checkAnomalies burstDb 2000).2.mode = "awake" := by
  obtain ⟨hiff, himp, hemp⟩ :=
    checkAnomalies_side_effects burstDb 2000 (checkAnomalies burstDb 2000).1.1
      (checkAnomalies burstDb 2000).1.2 (checkAnomalies burstDb 2000).2 rfl
  obtain ⟨hp, hns, hm, _⟩ := himp (by decide)
  exact ⟨hp, hm⟩

lemma mem_foldl_distinct (l : List String) (acc : List String) (a : String) :
    a ∈ l.foldl (fun acc b => if b ∈ acc then acc else acc ++ [b]) acc ↔
      a ∈ acc ∨ a ∈ l := by
  induction l generalizing acc with
  | nil => simp
  | cons b t ih =>
    simp only [List.foldl_cons]
    rw [ih]
    by_cases hb : b ∈ acc
    · rw [if_pos hb]
      constructor
      · rintro (h | h)
        · exact Or.inl h
        · exact Or.inr (List.mem_cons_of_mem b h)
      · rintro (h | h)
        · exact Or.inl h
        · rcases List.mem_cons.mp h with rfl | h2
          · exact Or.inl hb
          · exact Or.inr h2
    · rw [if_neg hb]
      simp only [List.mem_append, List.mem_singleton, List.mem_cons]
      tauto

lemma mem_distinctAgents (l : List String) (a : String) :
    a ∈ distinctAgents l ↔ a ∈ l := by
  unfold distinctAgents
  rw [mem_foldl_distinct]
  simp

lemma excessiveCallAnomalies_type (db : Db) (now : Int) (x : Anomaly)
    (hx : x ∈ excessiveCallAnomalies db now) : x.type = "excessive_calls" := by
  simp only [excessiveCallAnomalies, List.mem_filterMap] at hx
  obtain ⟨b, _, hfb⟩ := hx
  split at hfb
  · cases hfb
    rfl
  · cases hfb

lemma consecutiveFailureAnomalies_type (db : Db) (x : Anomaly)
    (hx : x ∈ consecutiveFailureAnomalies db) : x.type = "consecutive_failures" := by
  simp only [consecutiveFailureAnomalies, List.mem_filterMap] at hx
  obtain ⟨b, _, hfb⟩ := hx
  split at hfb
  · cases hfb
    rfl
  · cases hfb

lemma consecutiveFailure_agent_iff (db : Db) (a : String)
    (hN : 1 ≤ db.maxConsecutiveFailures) :
    (∃ anom ∈ consecutiveFailureAnomalies db, anom.agent = a) ↔
      db.maxConsecutiveFailures ≤ countBlocked db.auditLog a := by
  constructor
  · rintro ⟨anom, hmem, hagent⟩
    simp only [consecutiveFailureAnomalies, List.mem_filterMap] at hmem
    obtain ⟨b, hb, hfb⟩ := hmem
    split at hfb
    case isTrue hcond =>
      cases hfb
      have hba : b = a := hagent
      subst hba
      rw [List.length_take, List.length_reverse] at hcond
      exact (Nat.le_min.mp hcond.2).2
    case isFalse hcond => cases hfb
  · intro hc
    have hlen1 : 1 ≤ ((db.auditLog.filter (fun e => e.blocked)).filter
        (fun e => e.agent == a)).length := le_trans hN hc
    have hnonempty : (db.auditLog.filter (fun e => e.blocked)).filter
        (fun e => e.agent == a) ≠ [] := by
      intro h0
      rw [h0] at hlen1
      simp at hlen1
    obtain ⟨e, he⟩ := List.exists_mem_of_ne_nil _ hnonempty
    have heb : e ∈ db.auditLog.filter (fun e => e.blocked) :=
      List.mem_of_mem_filter he
    have hea : e.agent = a := by
      have hpe := List.of_mem_filter he
      simpa using hpe
    have hadist : a ∈ distinctAgents
        ((db.auditLog.filter (fun e => e.blocked)).map (fun e => e.agent)) :=
      (mem_distinctAgents _ a).mpr (List.mem_map.mpr ⟨e, heb, hea⟩)
    have hcond : 1 ≤ (((db.auditLog.filter (fun e => e.blocked)).filter
          (fun e => e.agent == a)).reverse.take db.maxConsecutiveFailures).length ∧
        db.maxConsecutiveFailures ≤ (((db.auditLog.filter (fun e => e.blocked)).filter
          (fun e => e.agent == a)).reverse.take db.maxConsecutiveFailures).length := by
      rw [List.length_take, List.length_reverse]
      exact ⟨Nat.le_min.mpr ⟨hN, hlen1⟩, Nat.le_min.mpr ⟨Nat.le_refl _, hc⟩⟩
    refine ⟨⟨"consecutive_failures", a,
        toString (((db.auditLog.filter (fun e => e.blocked)).filter
          (fun e => e.agent == a)).reverse.take db.maxConsecutiveFailures).length ++
          " consecutive blocked actions (threshold: " ++
          toString db.maxConsecutiveFailures ++ ")"⟩,
      ?_, rfl⟩
    simp only [consecutiveFailureAnomalies, List.mem_filterMap]
    refine ⟨a, hadist, ?_⟩
    rw [if_pos hcond]

/-- C7: checkAnomalies reports a consecutive_failures anomaly for an
agent exactly when that agent has accumulated at least
max_consecutive_failures blocked audit entries in total — however old
they are and however many non-blocked entries of the same agent sit
between them (the threshold is assumed ≥ 1, as enforced by
setAnomalyThreshold and the seeded default). -/
theorem consecutive_failures_detection (db : Db) (now : Int) (a : String)
    (hN : 1 ≤ db.maxConsecutiveFailures) :
    (∃ anom ∈ (checkAnomalies db now).1.1,
        anom.type = "consecutive_failures" ∧ anom.agent = a) ↔
      db.maxConsecutiveFailures ≤ countBlocked db.auditLog a := by
  rw [checkAnomalies_anomalies]
  constructor
  · rintro ⟨anom, hmem, htype, hagent⟩
    rcases List.mem_append.mp hmem with hA | hB
    · have hty := excessiveCallAnomalies_type db now anom hA
      rw [hty] at htype
      exact absurd htype (by decide)
    · exact (consecutiveFailure_agent_iff db a hN).mp ⟨anom, hB, hagent⟩
  · intro hc
    obtain ⟨anom, hmem, hagent⟩ := (consecutiveFailure_agent_iff db a hN).mpr hc
    exact ⟨anom, List.mem_append.mpr (Or.inr hmem),
      consecutiveFailureAnomalies_type db anom hmem, hagent⟩

/-- C7 witness: with threshold 2, two blocked entries of agent "bot"
separated by a non-blocked entry still produce a consecutive_failures
anomaly. -/
theorem consecutive_failures_detection_witness :
    ∃ anom ∈ (checkAnomalies interleavedDb 0).1.1,
      anom.type = "consecutive_failures" ∧ anom.agent = "bot" :=
  (consecutive_failures_detection interleavedDb 0 "bot" (by decide)).mpr (by decide)
